import Mathlib

/-!
A shallow embedding of the real-time messaging and notification subsystem of
the repository: the in-memory storage (`MemStorage` in server/storage.ts), the
REST route handlers and the WebSocket connection registry (server/routes.ts),
and the relevant drizzle schema defaults (shared/schema.ts).

Modelling conventions:
* JavaScript `Map`s are modelled as insertion-ordered association lists.
  `Map.set` replaces the value of an existing key in place (JS maps keep the
  original insertion position) and appends otherwise; `Map.delete` removes the
  entry; `Array.from(map.values())` lists values in insertion order.  Keys of a
  JS `Map` are unique.
* `Array.prototype.sort(cmp)` is modelled as a stable sort
  (`List.insertionSort`), which is what ECMAScript guarantees; the numeric
  comparators of the source translate to the corresponding `≤` relations.
* `randomUUID()` and `new Date().getTime()` are environment inputs, passed to
  each operation as explicit `freshId` / `nowMs` arguments.
* `jwt.verify` is an environment function `String → Option String` returning
  the embedded user id on success.
-/

namespace Ghost

/-- JS `Map.prototype.get`. -/
def mapGet {α : Type} (m : List (String × α)) (k : String) : Option α :=
  (m.find? (fun kv => kv.1 == k)).map (fun kv => kv.2)

/-- JS `Map.prototype.set`: replaces the value of an existing key in place,
appends a new entry otherwise. -/
def mapSet {α : Type} : List (String × α) → String → α → List (String × α)
  | [], k, v => [(k, v)]
  | kv :: rest, k, v => if kv.1 == k then (k, v) :: rest else kv :: mapSet rest k v

/-- JS `Map.prototype.delete`. -/
def mapDelete {α : Type} : List (String × α) → String → List (String × α)
  | [], _ => []
  | kv :: rest, k => if kv.1 == k then rest else kv :: mapDelete rest k

/-- JS `Array.from(map.values())`: the values in insertion order. -/
def mapValues {α : Type} (m : List (String × α)) : List α :=
  m.map (fun kv => kv.2)

/-- The fields of a user row that the messaging subsystem reads. -/
structure User where
  id : String
  username : String
  deriving DecidableEq, Repr

/-- A conversation row (shared/schema.ts `conversations`). -/
structure Conversation where
  id : String
  isGroup : Bool
  title : Option String
  createdAtMs : Nat
  lastMessageAtMs : Option Nat
  participantIds : List String
  deriving DecidableEq, Repr

/-- A message row (shared/schema.ts `messages`). -/
structure Message where
  id : String
  conversationId : String
  senderId : String
  content : String
  createdAtMs : Nat
  readBy : List String
  deriving DecidableEq, Repr

/-- A notification row (shared/schema.ts `notifications`). -/
structure Notification where
  id : String
  userId : String
  actorId : String
  kind : String
  targetId : Option String
  read : Bool
  deriving DecidableEq, Repr

/-- The fields of a post row used by the like route. -/
structure Post where
  id : String
  userId : String
  likeCount : Nat
  deriving DecidableEq, Repr

/-- A like row, stored under the key `userId + "-" + postId`. -/
structure LikeRow where
  userId : String
  postId : String
  deriving DecidableEq, Repr

/-- The payload accepted by `insertMessageSchema` (id, createdAt and readBy are
omitted by the schema). -/
structure InsertMessage where
  conversationId : String
  senderId : String
  content : String
  deriving DecidableEq, Repr

/-- The payload accepted by `insertConversationSchema`. -/
structure InsertConversation where
  participantIds : List String
  isGroup : Bool
  title : Option String
  deriving DecidableEq, Repr

/-- `MessageWithSender`: a message joined with its sender row. -/
structure MessageWithSender where
  msg : Message
  sender : User
  deriving DecidableEq, Repr

/-- `ConversationWithDetails`: a conversation with participants, last message
and the caller's unread count. -/
structure ConversationWithDetails where
  conv : Conversation
  participants : List User
  lastMessage : Option Message
  unreadCount : Nat
  deriving DecidableEq, Repr

/-- The tables of `MemStorage` that the messaging and like/notification paths
touch. -/
structure StorageState where
  users : List (String × User)
  posts : List (String × Post)
  likes : List (String × LikeRow)
  conversations : List (String × Conversation)
  messages : List (String × Message)
  notifications : List (String × Notification)
  deriving DecidableEq, Repr

/-- `MemStorage.createConversation`. -/
def createConversation (s : StorageState) (freshId : String) (nowMs : Nat)
    (ic : InsertConversation) : Conversation × StorageState :=
  let conversation : Conversation :=
    { id := freshId, isGroup := ic.isGroup, title := ic.title,
      createdAtMs := nowMs, lastMessageAtMs := none,
      participantIds := ic.participantIds }
  (conversation, { s with conversations := mapSet s.conversations freshId conversation })

/-- `MemStorage.sendMessage`: persists the message with `readBy = [senderId]`
and bumps the conversation's `lastMessageAt`.  There is no participant check. -/
def sendMessage (s : StorageState) (freshId : String) (nowMs : Nat)
    (im : InsertMessage) : Message × StorageState :=
  let message : Message :=
    { id := freshId, conversationId := im.conversationId, senderId := im.senderId,
      content := im.content, createdAtMs := nowMs, readBy := [im.senderId] }
  let messages1 := mapSet s.messages freshId message
  let conversations1 :=
    match mapGet s.conversations im.conversationId with
    | some conv =>
        mapSet s.conversations im.conversationId { conv with lastMessageAtMs := some nowMs }
    | none => s.conversations
  (message, { s with messages := messages1, conversations := conversations1 })

/-- `DatabaseStorage.sendMessage`: inserts the validated `InsertMessage` row
directly.  `insertMessageSchema` omits `readBy` (shared/schema.ts), so the
`read_by` column default `'[]'::jsonb` applies — the database-backed message
row starts with an empty read-set, not `[senderId]`. -/
def dbSendMessage (freshId : String) (nowMs : Nat) (im : InsertMessage) : Message :=
  { id := freshId, conversationId := im.conversationId, senderId := im.senderId,
    content := im.content, createdAtMs := nowMs, readBy := [] }

/-- Comparator of `MemStorage.getMessages`: `(a, b) => aTime - bTime`
(chronological ascending). -/
def byCreatedAsc (a b : Message) : Prop :=
  a.createdAtMs ≤ b.createdAtMs

/-- Comparator of the message list built inside `MemStorage.getConversations`:
`(a, b) => bTime - aTime` (newest first). -/
def byCreatedDesc (a b : Message) : Prop :=
  b.createdAtMs ≤ a.createdAtMs

/-- Comparator of `MemStorage.getConversations`: descending by
`lastMessageAt ? lastMessageAt.getTime() : 0` — a conversation with no
messages counts as last active at the epoch (key 0), not at its creation
time. -/
def byLastMessageDesc (a b : Conversation) : Prop :=
  b.lastMessageAtMs.getD 0 ≤ a.lastMessageAtMs.getD 0

instance : DecidableRel byCreatedAsc :=
  fun a b => inferInstanceAs (Decidable (a.createdAtMs ≤ b.createdAtMs))

instance : DecidableRel byCreatedDesc :=
  fun a b => inferInstanceAs (Decidable (b.createdAtMs ≤ a.createdAtMs))

instance : DecidableRel byLastMessageDesc :=
  fun a b => inferInstanceAs (Decidable (b.lastMessageAtMs.getD 0 ≤ a.lastMessageAtMs.getD 0))

/-- `MemStorage.getMessages`: the conversation's messages in chronological
order, each joined with its sender row (messages whose sender row is missing
are dropped).  There is no participant check. -/
def getMessages (s : StorageState) (conversationId : String) : List MessageWithSender :=
  let msgs := (mapValues s.messages).filter (fun m => m.conversationId == conversationId)
  (List.insertionSort byCreatedAsc msgs).filterMap
    (fun m => (mapGet s.users m.senderId).map (fun u => ⟨m, u⟩))

/-- The `readBy` update that `MemStorage.markMessagesAsRead` applies to a
single message row. -/
def markReadOne (conversationId userId : String) (m : Message) : Message :=
  if m.conversationId == conversationId && !(m.readBy.contains userId)
  then { m with readBy := m.readBy ++ [userId] }
  else m

/-- `MemStorage.markMessagesAsRead`: appends `userId` to `readBy` of every
message of the conversation that does not already list it.  The source filters
the rows and writes each one back with `messages.set(message.id, message)`;
since JS map keys are unique this is an entrywise in-place update.  There is no
participant check on `userId`. -/
def markMessagesAsRead (s : StorageState) (conversationId userId : String) : StorageState :=
  { s with messages :=
      s.messages.map (fun kv => (kv.1, markReadOne conversationId userId kv.2)) }

/-- The per-conversation enrichment performed inside
`MemStorage.getConversations`: participants, newest-first messages, last
message and unread count. -/
def conversationDetails (s : StorageState) (userId : String) (conv : Conversation) :
    ConversationWithDetails :=
  let msgs := (mapValues s.messages).filter (fun m => m.conversationId == conv.id)
  let sorted := List.insertionSort byCreatedDesc msgs
  { conv := conv,
    participants := conv.participantIds.filterMap (mapGet s.users),
    lastMessage := sorted.head?,
    unreadCount := (sorted.filter (fun m => !(m.readBy.contains userId))).length }

/-- `MemStorage.getConversations`: conversations containing `userId`, sorted by
`lastMessageAt` descending with missing `lastMessageAt` read as 0. -/
def getConversations (s : StorageState) (userId : String) : List ConversationWithDetails :=
  let userConversations :=
    (mapValues s.conversations).filter (fun c => c.participantIds.contains userId)
  (List.insertionSort byLastMessageDesc userConversations).map (conversationDetails s userId)

/-- `MemStorage.createNotification`. -/
def createNotification (s : StorageState) (freshId : String)
    (userId actorId kind : String) (targetId : Option String) :
    Notification × StorageState :=
  let n : Notification :=
    { id := freshId, userId := userId, actorId := actorId,
      kind := kind, targetId := targetId, read := false }
  (n, { s with notifications := mapSet s.notifications freshId n })

/-- A live socket handle: an identity (to distinguish handles) plus its
`readyState`. -/
structure WSocket where
  sid : Nat
  readyState : Nat
  deriving DecidableEq, Repr

/-- `WebSocket.OPEN`. -/
def wsOPEN : Nat := 1

/-- The `clients` map of `registerRoutes`: user id → live socket handle. -/
abbrev ClientMap := List (String × WSocket)

/-- A server→client WebSocket frame (`type: "message" | "notification"`). -/
inductive WsFrame where
  | message (m : Message) (sender : Option User)
  | notif (kind : String) (actorId : String) (postId : Option String)
  deriving DecidableEq, Repr

/-- `sendToUser`: looks the user up in the registry and sends the frame only if
a handle exists and its `readyState` is `OPEN`; the result is the list of
frames actually pushed (empty or a singleton).  It is a total function — no
error is ever raised. -/
def sendToUser (clients : ClientMap) (userId : String) (frame : WsFrame) :
    List (String × WsFrame) :=
  match mapGet clients userId with
  | some client => if client.readyState == wsOPEN then [(userId, frame)] else []
  | none => []

/-- Outcome of the `wss.on('connection')` handler: the registry afterwards,
whether `ws.close()` was called, and whether the socket was registered. -/
structure ConnOutcome where
  clients : ClientMap
  closed : Bool
  registered : Bool
  deriving DecidableEq, Repr

/-- The `wss.on('connection')` handler: reads `?token=` from the query string.
With no token it does nothing at all (the socket stays open, unregistered);
with a token it verifies it, registering the socket on success and calling
`ws.close()` on failure. -/
def onConnection (clients : ClientMap) (ws : WSocket) (token : Option String)
    (verify : String → Option String) : ConnOutcome :=
  match token with
  | some t =>
    match verify t with
    | some userId =>
        { clients := mapSet clients userId ws, closed := false, registered := true }
    | none => { clients := clients, closed := true, registered := false }
  | none => { clients := clients, closed := false, registered := false }

/-- The `ws.on('close')` handler installed for a successfully verified
connection: `clients.delete(decoded.userId)` — unconditional, with no check
that the stored handle is still the closing one. -/
def onClose (clients : ClientMap) (userId : String) : ClientMap :=
  mapDelete clients userId

/-- Outcome of a REST handler: the JSON payload on success, or a status code
with an error body. -/
inductive RouteResult (α : Type) where
  | ok (val : α)
  | err (status : Nat) (msg : String)
  deriving DecidableEq, Repr

/-- Whether a route answered successfully. -/
def RouteResult.isOk {α : Type} : RouteResult α → Bool
  | .ok _ => true
  | .err _ _ => false

/-- The content bound of `insertMessageSchema`: `z.string().min(1).max(2000)`. -/
def validMessageContent (content : String) : Bool :=
  1 ≤ content.length && content.length ≤ 2000

/-- `POST /api/messages`: validates the body, persists through
`storage.sendMessage`, then fans a `message` frame out to the other
participants (found through `getConversations` of the *sender*, so a
non-participant sender produces no fan-out).  There is no participant check:
nothing in the handler can answer 403. -/
def postMessages (s : StorageState) (clients : ClientMap) (freshId : String)
    (nowMs : Nat) (userId conversationId content : String) :
    RouteResult (Message × Option User) × StorageState × List (String × WsFrame) :=
  if validMessageContent content then
    let im : InsertMessage :=
      { conversationId := conversationId, senderId := userId, content := content }
    let ms := sendMessage s freshId nowMs im
    let sender := mapGet ms.2.users userId
    let frame := WsFrame.message ms.1 sender
    let sent :=
      match (getConversations ms.2 userId).find? (fun c => c.conv.id == conversationId) with
      | some c =>
          ((c.conv.participantIds.filter (fun pid => pid != userId)).map
            (fun pid => sendToUser clients pid frame)).flatten
      | none => []
    (.ok (ms.1, sender), ms.2, sent)
  else (.err 400 "InvalidContent", s, [])

/-- `GET /api/messages/:conversationId`: returns the conversation's messages
and, as a side effect, marks them all read for the caller.  There is no
participant check and the handler body cannot throw, so it always answers
200. -/
def getMessagesRoute (s : StorageState) (userId conversationId : String) :
    RouteResult (List MessageWithSender) × StorageState :=
  (.ok (getMessages s conversationId), markMessagesAsRead s conversationId userId)

/-- `MemStorage.toggleLike`, specialised to a post known to exist (the route
looks the post up first).  `Math.max(0, n - 1)` is `Nat` truncated
subtraction. -/
def toggleLike (s : StorageState) (userId postId : String) (post : Post) :
    (Bool × Nat) × StorageState :=
  let key := userId ++ "-" ++ postId
  match mapGet s.likes key with
  | some _ =>
    let n := post.likeCount - 1
    ((false, n),
     { s with likes := mapDelete s.likes key,
              posts := mapSet s.posts postId { post with likeCount := n } })
  | none =>
    let n := post.likeCount + 1
    ((true, n),
     { s with likes := mapSet s.likes key { userId := userId, postId := postId },
              posts := mapSet s.posts postId { post with likeCount := n } })

/-- `POST /api/posts/:id/like`: toggles the like and, only when the post was
newly liked *and* the liker is not the post's owner, persists a `like`
notification and pushes a `notification` frame to the owner. -/
def likePost (s : StorageState) (clients : ClientMap) (freshId : String)
    (userId postId : String) :
    RouteResult (Bool × Nat) × StorageState × List (String × WsFrame) :=
  match mapGet s.posts postId with
  | none => (.err 404 "Post not found", s, [])
  | some post =>
    let r := toggleLike s userId postId post
    if r.1.1 && post.userId != userId then
      let n := createNotification r.2 freshId post.userId userId "like" (some postId)
      (.ok r.1, n.2, sendToUser clients post.userId (WsFrame.notif "like" userId (some postId)))
    else (.ok r.1, r.2, [])

/-- The number of messages of a conversation whose read-set excludes `userId`,
computed over the raw message table; `getConversations` reports exactly this
as `unreadCount`. -/
def unreadCountFor (s : StorageState) (conversationId userId : String) : Nat :=
  ((mapValues s.messages).filter
    (fun m => m.conversationId == conversationId && !(m.readBy.contains userId))).length

/-- The state-mutating operations of the messaging core, as invoked through
the REST surface. -/
inductive Op where
  | createConv (freshId : String) (nowMs : Nat) (ic : InsertConversation)
  | send (freshId : String) (nowMs : Nat) (userId conversationId content : String)
  | fetchMessages (userId conversationId : String)
  | like (freshId : String) (userId postId : String)

/-- One step of the storage-state machine. -/
def applyOp (s : StorageState) : Op → StorageState
  | .createConv fid now ic => (createConversation s fid now ic).2
  | .send fid now uid cid content => (postMessages s [] fid now uid cid content).2.1
  | .fetchMessages uid cid => (getMessagesRoute s uid cid).2
  | .like fid uid pid => (likePost s [] fid uid pid).2.1

/-- The empty storage (`MemStorage`'s constructor). -/
def initialState : StorageState :=
  { users := [], posts := [], likes := [], conversations := [], messages := [], notifications := [] }

/-- The state reached by a sequence of operations from the empty storage. -/
def runOps (ops : List Op) : StorageState :=
  ops.foldl applyOp initialState

/-- No message row holds a duplicate user identity in its `readBy` list. -/
def ReadByNodup (s : StorageState) : Prop :=
  ∀ kv ∈ s.messages, kv.2.readBy.Nodup


/-! ### Helper lemmas about the map model, the stable sort and read-marking -/


theorem contains_iff {l : List String} {a : String} : l.contains a = true ↔ a ∈ l :=
  List.elem_iff

theorem mapGet_mapSet_self {α : Type} (m : List (String × α)) (k : String) (v : α) :
    mapGet (mapSet m k v) k = some v := by
  induction m with
  | nil => simp [mapGet, mapSet]
  | cons kv rest ih =>
    by_cases h : kv.1 = k
    · have hb : (kv.1 == k) = true := by simp [h]
      simp [mapSet, hb, mapGet]
    · have hb : (kv.1 == k) = false := by simp [h]
      simp only [mapSet, hb, Bool.false_eq_true, if_false]
      simpa [mapGet, List.find?, hb] using ih

theorem keys_mapSet_cases {α : Type} (m : List (String × α)) (k : String) (v : α) :
    ∀ x ∈ (mapSet m k v).map Prod.fst, x ∈ m.map Prod.fst ∨ x = k := by
  induction m with
  | nil => intro x hx; simp [mapSet] at hx; exact Or.inr hx
  | cons kv rest ih =>
    intro x hx
    by_cases h : kv.1 = k
    · have hb : (kv.1 == k) = true := by simp [h]
      simp only [mapSet, hb, if_true, List.map_cons, List.mem_cons] at hx
      rcases hx with hx | hx
      · exact Or.inr hx
      · exact Or.inl (by simp only [List.map_cons, List.mem_cons]; exact Or.inr hx)
    · have hb : (kv.1 == k) = false := by simp [h]
      simp only [mapSet, hb, Bool.false_eq_true, if_false, List.map_cons, List.mem_cons] at hx
      rcases hx with hx | hx
      · exact Or.inl (by simp only [List.map_cons, List.mem_cons]; exact Or.inl hx)
      · rcases ih x hx with hy | hy
        · exact Or.inl (by simp only [List.map_cons, List.mem_cons]; exact Or.inr hy)
        · exact Or.inr hy

theorem keys_mapSet_nodup {α : Type} (m : List (String × α)) (k : String) (v : α)
    (hm : (m.map Prod.fst).Nodup) :
    ((mapSet m k v).map Prod.fst).Nodup := by
  induction m with
  | nil => simp [mapSet]
  | cons kv rest ih =>
    simp only [List.map_cons, List.nodup_cons] at hm
    by_cases h : kv.1 = k
    · have hb : (kv.1 == k) = true := by simp [h]
      simp only [mapSet, hb, if_true, List.map_cons, List.nodup_cons]
      exact ⟨h ▸ hm.1, hm.2⟩
    · have hb : (kv.1 == k) = false := by simp [h]
      simp only [mapSet, hb, Bool.false_eq_true, if_false, List.map_cons, List.nodup_cons]
      refine ⟨fun hmem => ?_, ih hm.2⟩
      rcases keys_mapSet_cases rest k v kv.1 hmem with hy | hy
      · exact hm.1 hy
      · exact h hy

theorem mapGet_mapDelete_self {α : Type} (m : List (String × α)) (k : String)
    (hm : (m.map Prod.fst).Nodup) :
    mapGet (mapDelete m k) k = none := by
  induction m with
  | nil => simp [mapGet, mapDelete]
  | cons kv rest ih =>
    simp only [List.map_cons, List.nodup_cons] at hm
    by_cases h : kv.1 = k
    · have hb : (kv.1 == k) = true := by simp [h]
      simp only [mapDelete, hb, if_true, mapGet]
      have : rest.find? (fun kv2 => kv2.1 == k) = none := by
        rw [List.find?_eq_none]
        intro x hx hbeq
        have hx1 : x.1 = k := by simpa using hbeq
        exact hm.1 (by rw [← h, ← hx1] at *; exact List.mem_map_of_mem Prod.fst hx)
      simp [this]
    · have hb : (kv.1 == k) = false := by simp [h]
      simp only [mapDelete, hb, Bool.false_eq_true, if_false]
      simpa [mapGet, List.find?, hb] using ih hm.2

theorem mem_values_mapSet_self {α : Type} (m : List (String × α)) (k : String) (v : α) :
    v ∈ mapValues (mapSet m k v) := by
  induction m with
  | nil => simp [mapSet, mapValues]
  | cons kv rest ih =>
    by_cases h : kv.1 = k
    · have hb : (kv.1 == k) = true := by simp [h]
      simp [mapSet, hb, mapValues]
    · have hb : (kv.1 == k) = false := by simp [h]
      simp only [mapSet, hb, Bool.false_eq_true, if_false, mapValues, List.map_cons,
        List.mem_cons]
      exact Or.inr (by simpa [mapValues] using ih)

theorem values_mapSet_fresh {α : Type} (m : List (String × α)) (k : String) (v : α)
    (hk : k ∉ m.map Prod.fst) :
    mapValues (mapSet m k v) = mapValues m ++ [v] := by
  induction m with
  | nil => simp [mapSet, mapValues]
  | cons kv rest ih =>
    simp only [List.map_cons, List.mem_cons] at hk
    push_neg at hk
    have hb : (kv.1 == k) = false := by
      simp only [beq_eq_false_iff_ne, ne_eq]
      exact fun hc => hk.1 hc.symm
    simp only [mapSet, hb, Bool.false_eq_true, if_false, mapValues, List.map_cons,
      List.cons_append, List.cons.injEq, true_and]
    simpa [mapValues] using ih hk.2

theorem mem_mapSet {α : Type} {m : List (String × α)} {k : String} {v : α} {kv : String × α}
    (h : kv ∈ mapSet m k v) : kv ∈ m ∨ kv = (k, v) := by
  induction m with
  | nil => simp [mapSet] at h; exact Or.inr h
  | cons kv2 rest ih =>
    by_cases h2 : kv2.1 = k
    · have hb : (kv2.1 == k) = true := by simp [h2]
      simp only [mapSet, hb, if_true, List.mem_cons] at h
      rcases h with h | h
      · exact Or.inr h
      · exact Or.inl (List.mem_cons_of_mem _ h)
    · have hb : (kv2.1 == k) = false := by simp [h2]
      simp only [mapSet, hb, Bool.false_eq_true, if_false, List.mem_cons] at h
      rcases h with h | h
      · exact Or.inl (by simp [h])
      · rcases ih h with h3 | h3
        · exact Or.inl (List.mem_cons_of_mem _ h3)
        · exact Or.inr h3

theorem mapGet_some_mem_values {α : Type} {m : List (String × α)} {k : String} {v : α}
    (h : mapGet m k = some v) : v ∈ mapValues m := by
  unfold mapGet at h
  rcases ho : m.find? (fun kv => kv.1 == k) with _ | kv
  · rw [ho] at h; simp at h
  · rw [ho] at h
    have h2 : kv.2 = v := by simpa using h
    have hmem := List.mem_of_find?_eq_some ho
    rw [← h2]
    exact List.mem_map_of_mem _ hmem


instance : IsTotal Conversation byLastMessageDesc :=
  ⟨fun a b => Nat.le_total (b.lastMessageAtMs.getD 0) (a.lastMessageAtMs.getD 0)⟩

instance : IsTrans Conversation byLastMessageDesc :=
  ⟨fun _ _ _ h1 h2 => Nat.le_trans h2 h1⟩

theorem orderedInsert_map {α : Type} (r : α → α → Prop) [DecidableRel r] (f : α → α)
    (hf : ∀ a b, r (f a) (f b) ↔ r a b) (a : α) (l : List α) :
    List.orderedInsert r (f a) (l.map f) = (List.orderedInsert r a l).map f := by
  induction l with
  | nil => rfl
  | cons b t ih =>
    simp only [List.map_cons, List.orderedInsert]
    by_cases h : r a b
    · rw [if_pos ((hf a b).mpr h), if_pos h, List.map_cons, List.map_cons]
    · rw [if_neg (fun hc => h ((hf a b).mp hc)), if_neg h, List.map_cons, ih]

theorem insertionSort_map {α : Type} (r : α → α → Prop) [DecidableRel r] (f : α → α)
    (hf : ∀ a b, r (f a) (f b) ↔ r a b) (l : List α) :
    List.insertionSort r (l.map f) = (List.insertionSort r l).map f := by
  induction l with
  | nil => rfl
  | cons a t ih =>
    simp only [List.map_cons, List.insertionSort, ih]
    exact orderedInsert_map r f hf a (List.insertionSort r t)

/-- The unread count reported for a conversation entry is the unread count
computed over the raw message table. -/
theorem conversationDetails_unreadCount (s : StorageState) (userId : String)
    (conv : Conversation) :
    (conversationDetails s userId conv).unreadCount = unreadCountFor s conv.id userId := by
  unfold conversationDetails unreadCountFor
  simp only
  rw [← List.countP_eq_length_filter, ← List.countP_eq_length_filter]
  rw [(List.perm_insertionSort byCreatedDesc _).countP_eq]
  rw [List.countP_filter]
  refine List.countP_congr ?_
  intro m _
  rw [Bool.and_comm]

/-- Every conversation of the user appears in the `getConversations` output. -/
theorem mem_getConversations (s : StorageState) (userId : String) (conv : Conversation)
    (hmem : conv ∈ mapValues s.conversations)
    (hpart : conv.participantIds.contains userId = true) :
    conversationDetails s userId conv ∈ getConversations s userId := by
  unfold getConversations
  refine List.mem_map_of_mem _ ?_
  rw [List.mem_insertionSort]
  exact List.mem_filter.mpr ⟨hmem, hpart⟩

/-- The conversation rows of the `getConversations` output. -/
theorem getConversations_convs (s : StorageState) (userId : String) :
    (getConversations s userId).map (fun e => e.conv) =
      List.insertionSort byLastMessageDesc
        ((mapValues s.conversations).filter (fun c => c.participantIds.contains userId)) := by
  unfold getConversations
  rw [List.map_map]
  exact List.map_id _


theorem markReadOne_conversationId (c u : String) (m : Message) :
    (markReadOne c u m).conversationId = m.conversationId := by
  unfold markReadOne; split <;> rfl

theorem markReadOne_senderId (c u : String) (m : Message) :
    (markReadOne c u m).senderId = m.senderId := by
  unfold markReadOne; split <;> rfl

theorem markReadOne_id (c u : String) (m : Message) :
    (markReadOne c u m).id = m.id := by
  unfold markReadOne; split <;> rfl

theorem markReadOne_content (c u : String) (m : Message) :
    (markReadOne c u m).content = m.content := by
  unfold markReadOne; split <;> rfl

theorem markReadOne_createdAtMs (c u : String) (m : Message) :
    (markReadOne c u m).createdAtMs = m.createdAtMs := by
  unfold markReadOne; split <;> rfl

theorem markReadOne_contains_self (c u : String) (m : Message)
    (h : m.conversationId = c) : ((markReadOne c u m).readBy.contains u) = true := by
  unfold markReadOne
  by_cases hr : (m.readBy.contains u) = true
  · have hco : (m.conversationId == c && !(m.readBy.contains u)) = false := by
      rw [hr]; simp
    rw [hco]; simpa using hr
  · have hb : (m.readBy.contains u) = false := by simpa using hr
    have hco : (m.conversationId == c && !(m.readBy.contains u)) = true := by
      rw [hb, h]; simp
    rw [hco]
    simp only [if_true]
    exact contains_iff.mpr (by simp)

theorem markReadOne_idem (c u : String) (m : Message) :
    markReadOne c u (markReadOne c u m) = markReadOne c u m := by
  by_cases h : (m.conversationId == c && !(m.readBy.contains u)) = true
  · have h1 : markReadOne c u m = { m with readBy := m.readBy ++ [u] } := by
      unfold markReadOne; rw [if_pos h]
    have hc : (({ m with readBy := m.readBy ++ [u] } : Message).readBy.contains u) = true :=
      contains_iff.mpr (by simp)
    rw [h1]
    unfold markReadOne
    simp [hc]
  · have h1 : markReadOne c u m = m := by
      unfold markReadOne; rw [if_neg h]
    rw [h1, h1]

theorem byCreatedAsc_markReadOne (c u : String) (a b : Message) :
    byCreatedAsc (markReadOne c u a) (markReadOne c u b) ↔ byCreatedAsc a b := by
  unfold byCreatedAsc
  rw [markReadOne_createdAtMs, markReadOne_createdAtMs]

theorem markMessagesAsRead_users (s : StorageState) (c u : String) :
    (markMessagesAsRead s c u).users = s.users := rfl

theorem values_markMessagesAsRead (s : StorageState) (c u : String) :
    mapValues (markMessagesAsRead s c u).messages =
      (mapValues s.messages).map (markReadOne c u) := by
  simp only [markMessagesAsRead, mapValues, List.map_map]
  rfl

/-- Fetching messages after the implicit read-marking returns the same rows,
with `userId` merely added to each read-set. -/
theorem getMessages_markRead (s : StorageState) (cid uid : String) :
    getMessages (markMessagesAsRead s cid uid) cid =
      (getMessages s cid).map
        (fun x => ⟨markReadOne cid uid x.msg, x.sender⟩) := by
  unfold getMessages
  simp only
  rw [values_markMessagesAsRead]
  rw [List.filter_map]
  have hfc : ((mapValues s.messages).filter
      ((fun m => m.conversationId == cid) ∘ markReadOne cid uid)) =
      ((mapValues s.messages).filter (fun m => m.conversationId == cid)) := by
    refine List.filter_congr ?_
    intro m _
    simp only [Function.comp_apply, markReadOne_conversationId]
  rw [hfc]
  rw [insertionSort_map byCreatedAsc (markReadOne cid uid) (byCreatedAsc_markReadOne cid uid)]
  rw [List.filterMap_map, List.map_filterMap]
  refine congrArg (fun f => List.filterMap f _) (funext fun m => ?_)
  simp only [Function.comp_apply, markMessagesAsRead_users, markReadOne_senderId]
  rw [Option.map_map]
  rfl

theorem unreadCountFor_markRead_self (s : StorageState) (cid uid : String) :
    unreadCountFor (markMessagesAsRead s cid uid) cid uid = 0 := by
  unfold unreadCountFor
  rw [values_markMessagesAsRead, ← List.countP_eq_length_filter, List.countP_map]
  rw [List.countP_eq_zero]
  intro m _
  simp only [Function.comp_apply]
  by_cases h : m.conversationId = cid
  · have hc := markReadOne_contains_self cid uid m h
    have hco : ((markReadOne cid uid m).conversationId == cid &&
        !((markReadOne cid uid m).readBy.contains uid)) = false := by
      rw [hc]; simp
    rw [hco]
    simp
  · have hcv : (markReadOne cid uid m).conversationId = m.conversationId :=
      markReadOne_conversationId cid uid m
    simp [hcv, h]

theorem markMessagesAsRead_idem (s : StorageState) (cid uid : String) :
    markMessagesAsRead (markMessagesAsRead s cid uid) cid uid =
      markMessagesAsRead s cid uid := by
  unfold markMessagesAsRead
  simp only [List.map_map]
  have hmap :
      (s.messages.map ((fun kv => (kv.1, markReadOne cid uid kv.2)) ∘
        (fun kv => (kv.1, markReadOne cid uid kv.2)))) =
      s.messages.map (fun kv => (kv.1, markReadOne cid uid kv.2)) := by
    refine List.map_congr_left ?_
    intro kv _
    simp only [Function.comp_apply, markReadOne_idem]
  rw [hmap]

theorem sendMessage_messages (s : StorageState) (fid : String) (now : Nat)
    (im : InsertMessage) :
    (sendMessage s fid now im).2.messages =
      mapSet s.messages fid
        { id := fid, conversationId := im.conversationId, senderId := im.senderId,
          content := im.content, createdAtMs := now, readBy := [im.senderId] } := rfl

theorem sendMessage_conversations_of_get (s : StorageState) (fid : String) (now : Nat)
    (im : InsertMessage) (conv : Conversation)
    (h : mapGet s.conversations im.conversationId = some conv) :
    (sendMessage s fid now im).2.conversations =
      mapSet s.conversations im.conversationId { conv with lastMessageAtMs := some now } := by
  unfold sendMessage
  rw [h]

theorem sendMessage_users (s : StorageState) (fid : String) (now : Nat)
    (im : InsertMessage) : (sendMessage s fid now im).2.users = s.users := rfl

/-- A freshly sent message adds one to the unread count of any user other than
the sender. -/
theorem unreadCountFor_sendMessage (s : StorageState) (fid : String) (now : Nat)
    (im : InsertMessage) (p : String)
    (hfresh : fid ∉ s.messages.map Prod.fst) (hp : p ≠ im.senderId) :
    unreadCountFor (sendMessage s fid now im).2 im.conversationId p =
      unreadCountFor s im.conversationId p + 1 := by
  unfold unreadCountFor
  rw [sendMessage_messages, values_mapSet_fresh _ _ _ hfresh, List.filter_append]
  have hc : (([im.senderId] : List String).contains p) = false := by
    rw [← Bool.not_eq_true]
    intro hcon
    exact hp (by simpa using contains_iff.mp hcon)
  have hpass : (fun m : Message =>
      m.conversationId == im.conversationId && !(m.readBy.contains p))
      { id := fid, conversationId := im.conversationId, senderId := im.senderId,
        content := im.content, createdAtMs := now, readBy := [im.senderId] } = true := by
    show (im.conversationId == im.conversationId && !(([im.senderId] : List String).contains p))
      = true
    rw [hc]
    simp
  rw [List.length_append, List.filter_cons, if_pos hpass]
  rfl

/-- Read-marking keeps `readBy` duplicate-free. -/
theorem markReadOne_nodup (c u : String) (m : Message) (h : m.readBy.Nodup) :
    (markReadOne c u m).readBy.Nodup := by
  unfold markReadOne
  by_cases hco : (m.conversationId == c && !(m.readBy.contains u)) = true
  · rw [if_pos hco]
    have hu : u ∉ m.readBy := by
      intro hmem
      rw [contains_iff.mpr hmem] at hco
      simp at hco
    exact List.Nodup.append h (List.nodup_singleton u)
      (fun a ha hb => hu ((List.mem_singleton.mp hb) ▸ ha))
  · rw [if_neg hco]
    exact h

theorem likePost_messages (s : StorageState) (clients : ClientMap) (fid uid pid : String) :
    (likePost s clients fid uid pid).2.1.messages = s.messages := by
  unfold likePost
  rcases hpost : mapGet s.posts pid with _ | post
  · rfl
  · rcases hlike : mapGet s.likes (uid ++ "-" ++ pid) with _ | lk <;>
      simp only [toggleLike, createNotification, hlike] <;> split <;> rfl

theorem readByNodup_applyOp (s : StorageState) (op : Op) (h : ReadByNodup s) :
    ReadByNodup (applyOp s op) := by
  cases op with
  | createConv fid now ic =>
    intro kv hkv
    exact h kv hkv
  | send fid now uid cid content =>
    by_cases hv : validMessageContent content = true
    · have hmsg : (applyOp s (Op.send fid now uid cid content)).messages =
          mapSet s.messages fid
            { id := fid, conversationId := cid, senderId := uid,
              content := content, createdAtMs := now, readBy := [uid] } := by
        show (postMessages s [] fid now uid cid content).2.1.messages = _
        unfold postMessages
        rw [if_pos hv]
        rfl
      intro kv hkv
      rw [hmsg] at hkv
      rcases mem_mapSet hkv with hk | hk
      · exact h kv hk
      · rw [hk]
        exact List.nodup_singleton uid
    · have hmsg : (applyOp s (Op.send fid now uid cid content)).messages = s.messages := by
        show (postMessages s [] fid now uid cid content).2.1.messages = _
        unfold postMessages
        rw [if_neg hv]
      intro kv hkv
      rw [hmsg] at hkv
      exact h kv hkv
  | fetchMessages uid cid =>
    intro kv hkv
    have hkv2 : kv ∈ s.messages.map (fun kv => (kv.1, markReadOne cid uid kv.2)) := hkv
    rcases List.mem_map.mp hkv2 with ⟨kv0, hkv0, hEq⟩
    rw [← hEq]
    exact markReadOne_nodup cid uid kv0.2 (h kv0 hkv0)
  | like fid uid pid =>
    intro kv hkv
    have hm : (likePost s [] fid uid pid).2.1.messages = s.messages :=
      likePost_messages s [] fid uid pid
    rw [show (applyOp s (Op.like fid uid pid)).messages =
        (likePost s [] fid uid pid).2.1.messages from rfl, hm] at hkv
    exact h kv hkv

theorem readByNodup_runOps (ops : List Op) : ReadByNodup (runOps ops) := by
  have hgen : ∀ (l : List Op) (s : StorageState), ReadByNodup s →
      ReadByNodup (l.foldl applyOp s) := by
    intro l
    induction l with
    | nil => intro s hs; exact hs
    | cons op t ih =>
      intro s hs
      exact ih (applyOp s op) (readByNodup_applyOp s op hs)
  exact hgen ops initialState (fun kv hkv => absurd hkv (List.not_mem_nil kv))

/-! ### Concrete example states used by the claim theorems -/

/-- A conversation between A and B only; D is an outsider. -/
def exC1 : StorageState :=
  { users := [("A", ⟨"A", "alice"⟩), ("B", ⟨"B", "bob"⟩), ("D", ⟨"D", "dana"⟩)],
    posts := [], likes := [],
    conversations := [("c1", ⟨"c1", false, none, 100, none, ["A", "B"]⟩)],
    messages := [], notifications := [] }

/-- C1: the spec says `sendMessage(u, C, …)` and `getMessages(C, u)` fail with
`NotParticipant` (403) for u outside the participant set and that the failed
send creates no row.  The code has no participant check at all: the outsider D
successfully posts a message into the A-B conversation (a row is created) and
successfully fetches it. -/
theorem C1_no_participant_check_eval :
    (mapGet exC1.conversations "c1").map (fun c => c.participantIds) = some ["A", "B"] ∧
    ("D" ∈ (["A", "B"] : List String) → False) ∧
    (postMessages exC1 [] "m1" 200 "D" "c1" "hello").1.isOk = true ∧
    exC1.messages.length = 0 ∧
    (postMessages exC1 [] "m1" 200 "D" "c1" "hello").2.1.messages.length = 1 ∧
    (getMessagesRoute exC1 "D" "c1").1.isOk = true := by
  decide

/-- The A-B conversation already carrying one message from A, read by A. -/
def exC4 : StorageState :=
  { users := [("A", ⟨"A", "alice"⟩), ("B", ⟨"B", "bob"⟩), ("D", ⟨"D", "dana"⟩)],
    posts := [], likes := [],
    conversations := [("c1", ⟨"c1", false, none, 100, some 10, ["A", "B"]⟩)],
    messages := [("m1", ⟨"m1", "c1", "A", "hi", 10, ["A"]⟩)],
    notifications := [] }

/-- C4: the spec invariant says every message's read-set stays inside the
conversation's participant set.  The outsider D fetches the A-B conversation;
the fetch-side read-marking adds D to the read-set, which then is not a subset
of the participants. -/
theorem C4_readset_escape_eval :
    (mapGet exC4.conversations "c1").map (fun c => c.participantIds) = some ["A", "B"] ∧
    (mapGet (getMessagesRoute exC4 "D" "c1").2.messages "m1").map (fun m => m.readBy)
      = some ["A", "D"] ∧
    ("D" ∈ (["A", "B"] : List String) → False) := by
  decide

/-- C2 (counterexample to the claim as stated): the database-backed
`sendMessage` inserts the row with the schema default `readBy = []`, not
`[senderId]` — the claim fails on `DatabaseStorage.sendMessage`. -/
theorem C2_counterexample :
    (dbSendMessage "m1" 5 ⟨"c1", "A", "hi"⟩).readBy = [] ∧
    ((dbSendMessage "m1" 5 ⟨"c1", "A", "hi"⟩).readBy = [("A" : String)] → False) := by
  decide

/-- C2 (amended): for the in-memory storage the claim holds — a message
created by `MemStorage.sendMessage` starts with read-set exactly `[senderId]`,
and it adds one to the `unreadCount` that `getConversations` reports to every
other participant.  (The database-backed `sendMessage` instead initialises the
read-set to the schema default `[]`.) -/
theorem C2_amended (s : StorageState) (fid : String) (now : Nat) (im : InsertMessage)
    (conv : Conversation) (p : String)
    (hconv : mapGet s.conversations im.conversationId = some conv)
    (hid : conv.id = im.conversationId)
    (hp : p ∈ conv.participantIds)
    (hpne : p ≠ im.senderId)
    (hfresh : fid ∉ s.messages.map Prod.fst) :
    (sendMessage s fid now im).1.readBy = [im.senderId] ∧
    ∃ e ∈ getConversations (sendMessage s fid now im).2 p,
      e.conv.id = im.conversationId ∧
      e.unreadCount = unreadCountFor s im.conversationId p + 1 := by
  refine ⟨rfl, ?_⟩
  have hconvs : (sendMessage s fid now im).2.conversations =
      mapSet s.conversations im.conversationId { conv with lastMessageAtMs := some now } :=
    sendMessage_conversations_of_get s fid now im conv hconv
  have hmem : ({ conv with lastMessageAtMs := some now } : Conversation) ∈
      mapValues (sendMessage s fid now im).2.conversations := by
    rw [hconvs]
    exact mem_values_mapSet_self _ _ _
  have hpart : ({ conv with lastMessageAtMs := some now } : Conversation).participantIds.contains
      p = true := contains_iff.mpr hp
  refine ⟨conversationDetails (sendMessage s fid now im).2 p
      { conv with lastMessageAtMs := some now },
    mem_getConversations _ _ _ hmem hpart, hid, ?_⟩
  rw [conversationDetails_unreadCount]
  show unreadCountFor (sendMessage s fid now im).2 conv.id p = _
  rw [hid]
  exact unreadCountFor_sendMessage s fid now im p hfresh hpne

/-- The conversation row of the C2 witness state. -/
def exC2conv : Conversation := ⟨"c1", false, none, 100, none, ["A", "P"]⟩

/-- A conversation between A and P with no messages yet. -/
def exC2 : StorageState :=
  { users := [("A", ⟨"A", "alice"⟩), ("P", ⟨"P", "pat"⟩)],
    posts := [], likes := [],
    conversations := [("c1", exC2conv)],
    messages := [], notifications := [] }

theorem C2_witness :
    (mapGet exC2.conversations "c1" = some exC2conv ∧ exC2conv.id = "c1" ∧
      "P" ∈ exC2conv.participantIds ∧ (("P" : String) = "A" → False) ∧
      "m1" ∉ exC2.messages.map Prod.fst) ∧
    ((sendMessage exC2 "m1" 200 ⟨"c1", "A", "hi"⟩).1.readBy = ["A"] ∧
      ∃ e ∈ getConversations (sendMessage exC2 "m1" 200 ⟨"c1", "A", "hi"⟩).2 "P",
        e.conv.id = "c1" ∧ e.unreadCount = unreadCountFor exC2 "c1" "P" + 1) :=
  ⟨⟨rfl, rfl, by decide, by decide, by decide⟩,
   C2_amended exC2 "m1" 200 ⟨"c1", "A", "hi"⟩ exC2conv "P" rfl rfl (by decide) (by decide)
     (by decide)⟩

/-- C3 (counterexample to the claim as stated): after registering h1 then h2
for the same user, the close handler of the stale h1 connection
(`clients.delete(userId)`, unconditional) evicts h2 as well — the lookup
afterwards finds nothing, whereas the claim says h2 remains registered. -/
theorem C3_counterexample :
    mapGet (mapSet (mapSet ([] : ClientMap) "u" ⟨1, 1⟩) "u" ⟨2, 1⟩) "u" = some ⟨2, 1⟩ ∧
    mapGet (onClose (mapSet (mapSet ([] : ClientMap) "u" ⟨1, 1⟩) "u" ⟨2, 1⟩) "u") "u" = none ∧
    (mapGet (onClose (mapSet (mapSet ([] : ClientMap) "u" ⟨1, 1⟩) "u" ⟨2, 1⟩) "u") "u"
      = some ⟨2, 1⟩ → False) := by
  decide

/-- C3 (amended): registration is last-writer-wins — after `register(u, h1)`
then `register(u, h2)`, lookup returns h2 — but the close handler deletes the
user's registry entry unconditionally (there is no stored-handle identity
guard), so the stale `unregister(u, h1)` also evicts h2 and the lookup then
finds nothing. -/
theorem C3_amended (clients : ClientMap) (u : String) (h1 h2 : WSocket)
    (hnd : (clients.map Prod.fst).Nodup) :
    mapGet (mapSet (mapSet clients u h1) u h2) u = some h2 ∧
    mapGet (onClose (mapSet (mapSet clients u h1) u h2) u) u = none := by
  refine ⟨mapGet_mapSet_self _ _ _, ?_⟩
  unfold onClose
  exact mapGet_mapDelete_self _ _ (keys_mapSet_nodup _ _ _ (keys_mapSet_nodup _ _ _ hnd))

theorem C3_witness :
    (([] : ClientMap).map Prod.fst).Nodup ∧
    (mapGet (mapSet (mapSet ([] : ClientMap) "v" ⟨1, 1⟩) "v" ⟨2, 1⟩) "v" = some ⟨2, 1⟩ ∧
      mapGet (onClose (mapSet (mapSet ([] : ClientMap) "v" ⟨1, 1⟩) "v" ⟨2, 1⟩) "v") "v" = none) :=
  ⟨by decide, C3_amended [] "v" ⟨1, 1⟩ ⟨2, 1⟩ (by decide)⟩

/-- C5 (counterexample to the claim as stated): a connection presenting *no*
token is not closed — the handler simply does nothing, leaving the socket open
and unregistered, whereas the claim says every missing-credential connection is
closed immediately. -/
theorem C5_counterexample :
    (onConnection ([] : ClientMap) ⟨1, 1⟩ none (fun _ => none)).closed = false ∧
    ((onConnection ([] : ClientMap) ⟨1, 1⟩ none (fun _ => none)).closed = true → False) ∧
    (onConnection ([] : ClientMap) ⟨1, 1⟩ none (fun _ => none)).clients = [] := by
  decide

/-- C5 (amended): a connection whose token fails verification is closed
immediately; a connection presenting no token at all is left open but never
registered.  In neither case is any entry added to the connection registry. -/
theorem C5_amended (clients : ClientMap) (ws : WSocket)
    (verify : String → Option String) (t : Option String) :
    (t = none → onConnection clients ws t verify =
      { clients := clients, closed := false, registered := false }) ∧
    (∀ tok, t = some tok → verify tok = none →
      onConnection clients ws t verify =
        { clients := clients, closed := true, registered := false }) := by
  constructor
  · intro h
    subst h
    rfl
  · intro tok ht hv
    subst ht
    have hred : onConnection clients ws (some tok) verify =
        match verify tok with
        | some userId =>
            { clients := mapSet clients userId ws, closed := false, registered := true }
        | none => { clients := clients, closed := true, registered := false } := rfl
    rw [hred, hv]

theorem C5_witness :
    ((some "tk" : Option String) = some "tk") ∧
    ((fun _ : String => (none : Option String)) "tk" = none) ∧
    onConnection ([] : ClientMap) ⟨1, 1⟩ (some "tk")
        (fun _ : String => (none : Option String)) =
      { clients := [], closed := true, registered := false } :=
  ⟨rfl, rfl,
   (C5_amended [] ⟨1, 1⟩ (fun _ : String => (none : Option String)) (some "tk")).2 "tk" rfl rfl⟩

/-- C6: `sendToUser` pushes the frame only when a handle for the user is
registered and in the `OPEN` ready-state; when the user is absent from the
registry, or the handle is not open, it sends nothing — and being a total
function it never raises.  Moreover the outcome of a triggering request (the
like route's response and resulting storage state) is the same whatever the
registry holds: delivery is a pure side channel. -/
theorem C6_dispatch_best_effort (clients : ClientMap) (u : String) (f : WsFrame) :
    (mapGet clients u = none → sendToUser clients u f = []) ∧
    (∀ c : WSocket, mapGet clients u = some c → c.readyState ≠ wsOPEN →
      sendToUser clients u f = []) ∧
    (∀ c : WSocket, mapGet clients u = some c → c.readyState = wsOPEN →
      sendToUser clients u f = [(u, f)]) ∧
    (∀ (s : StorageState) (clients2 : ClientMap) (fid uid pid : String),
      (likePost s clients fid uid pid).1 = (likePost s clients2 fid uid pid).1 ∧
      (likePost s clients fid uid pid).2.1 = (likePost s clients2 fid uid pid).2.1) := by
  refine ⟨?_, ?_, ?_, ?_⟩
  · intro h
    unfold sendToUser
    rw [h]
  · intro c hc hrs
    have hb : (c.readyState == wsOPEN) = false := by simpa using hrs
    have hred : sendToUser clients u f =
        if (c.readyState == wsOPEN) = true then [(u, f)] else [] := by
      unfold sendToUser
      rw [hc]
    rw [hred, hb]
    rfl
  · intro c hc hrs
    have hb : (c.readyState == wsOPEN) = true := by simpa using hrs
    have hred : sendToUser clients u f =
        if (c.readyState == wsOPEN) = true then [(u, f)] else [] := by
      unfold sendToUser
      rw [hc]
    rw [hred, hb]
    rfl
  · intro s clients2 fid uid pid
    rcases hpost : mapGet s.posts pid with _ | post
    · simp only [likePost, hpost]
      exact ⟨by trivial, by trivial⟩
    · simp only [likePost, hpost]
      by_cases hcond : ((toggleLike s uid pid post).1.1 && post.userId != uid) = true
      · rw [if_pos hcond, if_pos hcond]
        exact ⟨rfl, rfl⟩
      · rw [if_neg hcond, if_neg hcond]
        exact ⟨rfl, rfl⟩

theorem C6_witness :
    sendToUser ([] : ClientMap) "u" (WsFrame.notif "like" "a" none) = [] :=
  (C6_dispatch_best_effort [] "u" (WsFrame.notif "like" "a" none)).1 rfl

/-- Two conversations for user u: conversation a created at 100 with no
messages, conversation b created at 50 whose one message arrived at 70. -/
def exC7 : StorageState :=
  { users := [("u", ⟨"u", "ursa"⟩), ("x", ⟨"x", "xan"⟩)],
    posts := [], likes := [],
    conversations :=
      [("a", ⟨"a", false, none, 100, none, ["u", "x"]⟩),
       ("b", ⟨"b", false, none, 50, some 70, ["u", "x"]⟩)],
    messages := [("mb", ⟨"mb", "b", "x", "hi", 70, ["x"]⟩)],
    notifications := [] }

/-- C7 (counterexample to the claim as stated): with the creation-time fallback
the list would have to be ordered by the keys (a ↦ 100, b ↦ 70), i.e. a before
b; the code keys the message-less conversation a at 0, so it returns b before a
and the claimed key sequence [70, 100] is not descending. -/
theorem C7_counterexample :
    (getConversations exC7 "u").map (fun e => e.conv.id) = ["b", "a"] ∧
    (getConversations exC7 "u").map
      (fun e => e.conv.lastMessageAtMs.getD e.conv.createdAtMs) = [70, 100] ∧
    (((getConversations exC7 "u").map
      (fun e => e.conv.lastMessageAtMs.getD e.conv.createdAtMs)).Pairwise
        (fun x y => y ≤ x) → False) := by
  decide

/-- C7 (amended): `listConversations(u)` returns exactly the conversations
whose participant list contains u (as a permutation of that filter), ordered by
`lastMessageAt` descending with a missing `lastMessageAt` read as the epoch
(key 0) — not as the conversation's creation time — and each entry's
`unreadCount` is the number of messages of that conversation whose read-set
excludes u. -/
theorem C7_amended (s : StorageState) (u : String) :
    ((getConversations s u).map (fun e => e.conv)).Perm
      ((mapValues s.conversations).filter (fun c => c.participantIds.contains u)) ∧
    (((getConversations s u).map (fun e => e.conv.lastMessageAtMs.getD 0)).Pairwise
      (fun x y => y ≤ x)) ∧
    ((getConversations s u).map (fun e => e.unreadCount) =
      (getConversations s u).map (fun e => unreadCountFor s e.conv.id u)) := by
  refine ⟨?_, ?_, ?_⟩
  · rw [getConversations_convs]
    exact List.perm_insertionSort _ _
  · unfold getConversations
    rw [List.map_map]
    exact List.pairwise_map.mpr
      (List.sorted_insertionSort byLastMessageDesc
        ((mapValues s.conversations).filter (fun c => c.participantIds.contains u)))
  · unfold getConversations
    rw [List.map_map, List.map_map]
    refine List.map_congr_left ?_
    intro c _
    exact conversationDetails_unreadCount s u c

/-- C8: fetching a conversation twice in a row yields the same messages both
times (same ids, contents, senders, in the same order — only the read-sets
grow), after the first fetch the unread count reported for that conversation to
the caller is 0, and the second fetch leaves the storage unchanged (the
read-marking is idempotent). -/
theorem C8_fetch_idempotent (s : StorageState) (cid uid : String) (conv : Conversation)
    (hconv : mapGet s.conversations cid = some conv)
    (hid : conv.id = cid)
    (hpart : uid ∈ conv.participantIds) :
    (∃ l1 l2 : List MessageWithSender,
      (getMessagesRoute s uid cid).1 = RouteResult.ok l1 ∧
      (getMessagesRoute (getMessagesRoute s uid cid).2 uid cid).1 = RouteResult.ok l2 ∧
      l2.map (fun x => (x.msg.id, x.msg.content, x.msg.senderId, x.sender)) =
        l1.map (fun x => (x.msg.id, x.msg.content, x.msg.senderId, x.sender))) ∧
    (∃ e ∈ getConversations (getMessagesRoute s uid cid).2 uid,
      e.conv.id = cid ∧ e.unreadCount = 0) ∧
    (getMessagesRoute (getMessagesRoute s uid cid).2 uid cid).2 =
      (getMessagesRoute s uid cid).2 := by
  refine ⟨⟨getMessages s cid, getMessages (markMessagesAsRead s cid uid) cid,
      rfl, rfl, ?_⟩, ?_, ?_⟩
  · rw [getMessages_markRead, List.map_map]
    refine List.map_congr_left ?_
    intro x _
    simp only [Function.comp_apply, markReadOne_id, markReadOne_content, markReadOne_senderId]
  · have hmem : conv ∈ mapValues (markMessagesAsRead s cid uid).conversations := by
      show conv ∈ mapValues s.conversations
      exact mapGet_some_mem_values hconv
    have hpc : conv.participantIds.contains uid = true := contains_iff.mpr hpart
    refine ⟨conversationDetails (markMessagesAsRead s cid uid) uid conv,
      mem_getConversations _ _ _ hmem hpc, hid, ?_⟩
    rw [conversationDetails_unreadCount]
    show unreadCountFor (markMessagesAsRead s cid uid) conv.id uid = 0
    rw [hid]
    exact unreadCountFor_markRead_self s cid uid
  · exact markMessagesAsRead_idem s cid uid

/-- The conversation row of the C8 witness state. -/
def exC8conv : Conversation := ⟨"c1", false, none, 100, some 10, ["A", "B"]⟩

/-- A conversation between A and B with one message from A, still unread by
B. -/
def exC8 : StorageState :=
  { users := [("A", ⟨"A", "alice"⟩), ("B", ⟨"B", "bob"⟩)],
    posts := [], likes := [],
    conversations := [("c1", exC8conv)],
    messages := [("m1", ⟨"m1", "c1", "A", "hi", 10, ["A"]⟩)],
    notifications := [] }

theorem C8_witness :
    (mapGet exC8.conversations "c1" = some exC8conv ∧ exC8conv.id = "c1" ∧
      "B" ∈ exC8conv.participantIds) ∧
    ((∃ l1 l2 : List MessageWithSender,
      (getMessagesRoute exC8 "B" "c1").1 = RouteResult.ok l1 ∧
      (getMessagesRoute (getMessagesRoute exC8 "B" "c1").2 "B" "c1").1 = RouteResult.ok l2 ∧
      l2.map (fun x => (x.msg.id, x.msg.content, x.msg.senderId, x.sender)) =
        l1.map (fun x => (x.msg.id, x.msg.content, x.msg.senderId, x.sender))) ∧
    (∃ e ∈ getConversations (getMessagesRoute exC8 "B" "c1").2 "B",
      e.conv.id = "c1" ∧ e.unreadCount = 0) ∧
    (getMessagesRoute (getMessagesRoute exC8 "B" "c1").2 "B" "c1").2 =
      (getMessagesRoute exC8 "B" "c1").2) :=
  ⟨⟨rfl, rfl, by decide⟩, C8_fetch_idempotent exC8 "c1" "B" exC8conv rfl rfl (by decide)⟩

/-- C9: a like by the post's own author persists no notification row and
dispatches no notification frame, while the request itself still succeeds. -/
theorem C9_self_like_suppressed (s : StorageState) (clients : ClientMap)
    (fid uid pid : String) (post : Post)
    (hpost : mapGet s.posts pid = some post) (hself : post.userId = uid) :
    (likePost s clients fid uid pid).2.1.notifications = s.notifications ∧
    (likePost s clients fid uid pid).2.2 = [] ∧
    (likePost s clients fid uid pid).1.isOk = true := by
  have hbne : (post.userId != uid) = false := by
    rw [hself]
    simp
  have hcond : ((toggleLike s uid pid post).1.1 && post.userId != uid) = true → False := by
    intro hcon
    rw [hbne] at hcon
    simp at hcon
  have hred : likePost s clients fid uid pid =
      (RouteResult.ok (toggleLike s uid pid post).1, (toggleLike s uid pid post).2, []) := by
    simp only [likePost, hpost]
    rw [if_neg hcond]
  rw [hred]
  refine ⟨?_, rfl, rfl⟩
  unfold toggleLike
  rcases hlike : mapGet s.likes (uid ++ "-" ++ pid) with _ | lk <;> simp only [hlike]

/-- The post row of the C9 witness state. -/
def exC9post : Post := ⟨"p1", "A", 0⟩

/-- A single post owned by A. -/
def exC9 : StorageState :=
  { users := [("A", ⟨"A", "alice"⟩)],
    posts := [("p1", exC9post)], likes := [],
    conversations := [], messages := [], notifications := [] }

theorem C9_witness :
    (mapGet exC9.posts "p1" = some exC9post ∧ exC9post.userId = "A") ∧
    ((likePost exC9 [] "n1" "A" "p1").2.1.notifications = exC9.notifications ∧
      (likePost exC9 [] "n1" "A" "p1").2.2 = [] ∧
      (likePost exC9 [] "n1" "A" "p1").1.isOk = true) :=
  ⟨⟨rfl, rfl⟩, C9_self_like_suppressed exC9 [] "n1" "A" "p1" exC9post rfl rfl⟩

/-- C10: `readBy` never holds a duplicate user identity: message creation
initialises it to a one-element list and read-marking appends an identity only
when absent, so the no-duplicates invariant is preserved by every operation and
holds in every state reachable from the empty storage. -/
theorem C10_readBy_nodup_invariant :
    (∀ (s : StorageState) (op : Op), ReadByNodup s → ReadByNodup (applyOp s op)) ∧
    (∀ ops : List Op, ReadByNodup (runOps ops)) :=
  ⟨fun s op h => readByNodup_applyOp s op h, readByNodup_runOps⟩

theorem C10_witness :
    ReadByNodup initialState ∧
    ReadByNodup (applyOp initialState (Op.fetchMessages "u" "c")) :=
  ⟨fun kv hkv => absurd hkv (List.not_mem_nil kv),
   C10_readBy_nodup_invariant.1 initialState (Op.fetchMessages "u" "c")
     (fun kv hkv => absurd hkv (List.not_mem_nil kv))⟩

end Ghost
